import Mathlib

/-!
Shallow embedding of `src/magno_rel.py` (class `MagnoRelSim2D`).

Modelling conventions:
* 64-bit floats are modelled as real numbers (`ℝ`); numpy elementwise
  arithmetic becomes pointwise real arithmetic.
* A numpy array of shape `(m, n)` is a function `Fin m → Fin n → ℝ`;
  the grid dimensions `nx, ny` are type-level parameters of the state,
  so the shapes of `Bz`, `Ex`, `Ey` are fixed by construction exactly as
  a numpy array's shape is fixed by `np.zeros`.
* `c_eff` in the Python code returns either the bare float `c`
  (when `k_rel == 0.0`) or an ndarray; this dynamic return type is the
  sum type `CEff`.
* `step` mutates the instance in place; here it is a function from the
  old state to a `StepResult`: `.ok` carries the new state, `.err`
  carries the error kind together with the state as it stands when the
  Python exception propagates (subscripting the bare float `c_eff`
  with a 2-D slice raises `TypeError` while evaluating the right-hand
  side of the `Bz` update, before any array is written).
* `energy_hist` (a Python list, appended at the end) is a `List ℝ`.
-/

noncomputable section

/-- State of a `MagnoRelSim2D` instance.  The grid dimensions `nx, ny`
are type-level; the scalar parameters and the three field arrays are
the instance attributes set by `__init__` and mutated by `step`. -/
structure MagnoRelSim2D (nx ny : ℕ) where
  dx : ℝ
  dy : ℝ
  dt : ℝ
  c : ℝ
  k_rel : ℝ
  alpha_emerge : ℝ
  beta_sat : ℝ
  sigma_damp : ℝ
  Ex : Fin (nx + 1) → Fin ny → ℝ
  Ey : Fin nx → Fin (ny + 1) → ℝ
  Bz : Fin (nx + 1) → Fin (ny + 1) → ℝ
  energy_hist : List ℝ

/-- A source callback `apply_source(t, Bz)`: a function of the step index
and the current `Bz` array returning an array added elementwise to `Bz`
(the Python code also accepts the scalar `0.0`, which broadcasts to the
zero array). -/
def MagnoSource (nx ny : ℕ) : Type :=
  ℕ → (Fin (nx + 1) → Fin (ny + 1) → ℝ) → Fin (nx + 1) → Fin (ny + 1) → ℝ

/-- The dynamic return type of `c_eff`: either a bare Python float
(`k_rel == 0.0` branch, `return self.c`) or a per-node array with the
shape of `Bz`. -/
inductive CEff (nx ny : ℕ) where
  | scalar (v : ℝ)
  | arr (a : Fin (nx + 1) → Fin (ny + 1) → ℝ)

/-- `true` iff the `c_eff` result is an ndarray (rather than a bare float). -/
def CEff.isArr {nx ny : ℕ} : CEff nx ny → Bool
  | .scalar _ => false
  | .arr _ => true

/-- The error `step` can raise: `TypeError` from subscripting the bare
float returned by `c_eff` with a 2-D slice (`c_eff[1:self.nx, 1:self.ny]`). -/
inductive StepError where
  | floatNotSubscriptable

/-- Result of one `step` call: the new state, or the error kind raised
together with the state as of the moment the exception propagates. -/
inductive StepResult (nx ny : ℕ) where
  | ok (s : MagnoRelSim2D nx ny)
  | err (e : StepError) (s : MagnoRelSim2D nx ny)

/-- `__init__`: stores the parameters and allocates the three zero field
arrays (`Ex : (nx+1)×ny`, `Ey : nx×(ny+1)`, `Bz : (nx+1)×(ny+1)`) and the
empty `energy_hist`.  The Python constructor performs no validation. -/
def MagnoRelSim2D.init (nx ny : ℕ) (dx dy dt c k_rel alpha_emerge beta_sat sigma_damp : ℝ) :
    MagnoRelSim2D nx ny :=
  { dx := dx
    dy := dy
    dt := dt
    c := c
    k_rel := k_rel
    alpha_emerge := alpha_emerge
    beta_sat := beta_sat
    sigma_damp := sigma_damp
    Ex := fun _ _ => 0
    Ey := fun _ _ => 0
    Bz := fun _ _ => 0
    energy_hist := [] }

/-- The array branch of `c_eff`: `self.c / np.sqrt(1.0 + self.k_rel * (self.Bz**2))`
elementwise over the `Bz` grid. -/
def MagnoRelSim2D.ceArr {nx ny : ℕ} (s : MagnoRelSim2D nx ny) :
    Fin (nx + 1) → Fin (ny + 1) → ℝ :=
  fun i j => s.c / Real.sqrt (1 + s.k_rel * (s.Bz i j) ^ 2)

/-- `c_eff`: `if self.k_rel == 0.0: return self.c` (a bare float), else the
elementwise array `c / sqrt(1 + k_rel * Bz**2)`. -/
def MagnoRelSim2D.c_eff {nx ny : ℕ} (s : MagnoRelSim2D nx ny) : CEff nx ny :=
  if s.k_rel = 0 then .scalar s.c else .arr s.ceArr

/-- `_edge_damp`: the four sequential in-place passes
`A[:margin] *= factor`, `A[-margin:] *= factor`, `A[:, :margin] *= factor`,
`A[:, -margin:] *= factor`.  Natural-number subtraction `rows - margin`
matches numpy's clamping of the negative start index `-margin`. -/
def MagnoRelSim2D.edge_damp {rows cols : ℕ} (margin : ℕ) (factor : ℝ)
    (A : Fin rows → Fin cols → ℝ) : Fin rows → Fin cols → ℝ :=
  let A1 := fun (i : Fin rows) (j : Fin cols) =>
    if i.val < margin then A i j * factor else A i j
  let A2 := fun (i : Fin rows) (j : Fin cols) =>
    if rows - margin ≤ i.val then A1 i j * factor else A1 i j
  let A3 := fun (i : Fin rows) (j : Fin cols) =>
    if j.val < margin then A2 i j * factor else A2 i j
  fun i j => if cols - margin ≤ j.val then A3 i j * factor else A3 i j

/-- `np.mean(A**2)`: the sum of the squared entries divided by the number
of entries. -/
def meanSq {m n : ℕ} (A : Fin m → Fin n → ℝ) : ℝ :=
  (∑ i, ∑ j, (A i j) ^ 2) / ((m : ℝ) * (n : ℝ))

/-- The `Bz` update of `step` (line `self.Bz[1:nx,1:ny] += dt * c_eff[1:nx,1:ny]**2 * curl_E()`):
interior nodes `1 ≤ i < nx`, `1 ≤ j < ny` get
`dt * ce(i,j)^2 * ((Ex[i,j]-Ex[i,j-1])/dy - (Ey[i,j]-Ey[i-1,j])/dx)` added;
all other nodes are untouched.  `curl_E` is evaluated from the pre-update
`Ex`, `Ey`, and `ce` from the pre-update `Bz`. -/
def MagnoRelSim2D.BzStep1 {nx ny : ℕ} (s : MagnoRelSim2D nx ny)
    (ce : Fin (nx + 1) → Fin (ny + 1) → ℝ) : Fin (nx + 1) → Fin (ny + 1) → ℝ :=
  fun i j =>
    if h : 1 ≤ i.val ∧ i.val < nx ∧ 1 ≤ j.val ∧ j.val < ny then
      s.Bz i j + s.dt * (ce i j) ^ 2 *
        ((s.Ex i ⟨j.val, by omega⟩ - s.Ex i ⟨j.val - 1, by omega⟩) / s.dy -
         (s.Ey ⟨i.val, by omega⟩ j - s.Ey ⟨i.val - 1, by omega⟩ j) / s.dx)
    else s.Bz i j

/-- `if apply_source is not None: self.Bz += apply_source(t, self.Bz)`,
applied to the post-curl `Bz`. -/
def applySource {nx ny : ℕ} (Bz : Fin (nx + 1) → Fin (ny + 1) → ℝ)
    (src : Option (MagnoSource nx ny)) (t : ℕ) : Fin (nx + 1) → Fin (ny + 1) → ℝ :=
  match src with
  | none => Bz
  | some f => fun i j => Bz i j + f t Bz i j

/-- First component of `curl_B`: `(Bz[:, 1:] - Bz[:, :-1]) / dy`, the
forward difference of `Bz` along y, shaped like `Ex`. -/
def curlB_Ex {nx ny : ℕ} (dy : ℝ) (Bz : Fin (nx + 1) → Fin (ny + 1) → ℝ) :
    Fin (nx + 1) → Fin ny → ℝ :=
  fun i j => (Bz i j.succ - Bz i j.castSucc) / dy

/-- Second component of `curl_B`: `-((Bz[1:, :] - Bz[:-1, :]) / dx)`, the
negated forward difference of `Bz` along x, shaped like `Ey`. -/
def curlB_Ey {nx ny : ℕ} (dx : ℝ) (Bz : Fin (nx + 1) → Fin (ny + 1) → ℝ) :
    Fin nx → Fin (ny + 1) → ℝ :=
  fun i j => -((Bz i.succ j - Bz i.castSucc j) / dx)

/-- The per-cell increment of the `Ex`/`Ey` Euler update in `step`:
`dt * ( alpha_emerge * flux / (1.0 + beta_sat * e**2) - sigma_damp * e )`,
where `e` is the pre-update cell value and `flux` the `curl_B` term. -/
def satIncr (dt alpha_emerge beta_sat sigma_damp flux e : ℝ) : ℝ :=
  dt * (alpha_emerge * flux / (1 + beta_sat * e ^ 2) - sigma_damp * e)

/-- The body of a successful `step` (the `c_eff` result `ce` is an array):
interior `Bz` update, source, `curl_B` fluxes, saturating damped `E`
updates, edge damping of `Ex`, `Ey`, `Bz`, and the energy append. -/
def MagnoRelSim2D.stepBody {nx ny : ℕ} (s : MagnoRelSim2D nx ny)
    (ce : Fin (nx + 1) → Fin (ny + 1) → ℝ) (src : Option (MagnoSource nx ny))
    (t : ℕ) : MagnoRelSim2D nx ny :=
  let Bz2 := applySource (s.BzStep1 ce) src t
  let Ex1 := fun i j =>
    s.Ex i j + satIncr s.dt s.alpha_emerge s.beta_sat s.sigma_damp (curlB_Ex s.dy Bz2 i j) (s.Ex i j)
  let Ey1 := fun i j =>
    s.Ey i j + satIncr s.dt s.alpha_emerge s.beta_sat s.sigma_damp (curlB_Ey s.dx Bz2 i j) (s.Ey i j)
  let Ex2 := MagnoRelSim2D.edge_damp 4 (9 / 10) Ex1
  let Ey2 := MagnoRelSim2D.edge_damp 4 (9 / 10) Ey1
  let Bz3 := MagnoRelSim2D.edge_damp 4 (9 / 10) Bz2
  { s with
    Bz := Bz3
    Ex := Ex2
    Ey := Ey2
    energy_hist := s.energy_hist ++ [meanSq Bz3 + meanSq Ex2 + meanSq Ey2] }

/-- `step(apply_source, t)`.  When `c_eff` returned the bare float
(`k_rel == 0.0`), evaluating `c_eff[1:self.nx, 1:self.ny]` in the
right-hand side of the `Bz` update raises `TypeError` before anything has
been written, so the carried state is the input state unchanged. -/
def MagnoRelSim2D.step {nx ny : ℕ} (s : MagnoRelSim2D nx ny)
    (src : Option (MagnoSource nx ny)) (t : ℕ) : StepResult nx ny :=
  match s.c_eff with
  | .scalar _ => .err .floatNotSubscriptable s
  | .arr ce => .ok (s.stepBody ce src t)

/-- `for t in range(N): sim.step(apply_source, t)` — the first exception
aborts the loop and propagates. -/
def MagnoRelSim2D.run {nx ny : ℕ} (s : MagnoRelSim2D nx ny)
    (src : Option (MagnoSource nx ny)) : ℕ → StepResult nx ny
  | 0 => .ok s
  | n + 1 =>
    match s.run src n with
    | .ok s2 => s2.step src n
    | .err e s2 => .err e s2

/-- Shape of the `Bz` array of a state (the index space of its `Bz` field). -/
def MagnoRelSim2D.BzShape {nx ny : ℕ} (_ : MagnoRelSim2D nx ny) : ℕ × ℕ :=
  (nx + 1, ny + 1)

/-- Shape of the `Ex` array of a state. -/
def MagnoRelSim2D.ExShape {nx ny : ℕ} (_ : MagnoRelSim2D nx ny) : ℕ × ℕ :=
  (nx + 1, ny)

/-- Shape of the `Ey` array of a state. -/
def MagnoRelSim2D.EyShape {nx ny : ℕ} (_ : MagnoRelSim2D nx ny) : ℕ × ℕ :=
  (nx, ny + 1)

/-- The `Bz` array after the interior curl update and the source
injection, as read by `curl_B` within a successful `step`. -/
def MagnoRelSim2D.BzPostSource {nx ny : ℕ} (s : MagnoRelSim2D nx ny)
    (src : Option (MagnoSource nx ny)) (t : ℕ) : Fin (nx + 1) → Fin (ny + 1) → ℝ :=
  applySource (s.BzStep1 s.ceArr) src t

/-- Spec-side statement of the `Ex` update before edge damping: the old
`Ex` plus `dt * (alpha_emerge * flux_Ex / (1 + beta_sat * Ex**2) -
sigma_damp * Ex)`, where `flux_Ex` is the forward difference of the
post-source `Bz` along y divided by `dy` and the saturation denominator
uses the pre-update `Ex`. -/
def specExBeforeDamp {nx ny : ℕ} (s : MagnoRelSim2D nx ny)
    (src : Option (MagnoSource nx ny)) (t : ℕ) : Fin (nx + 1) → Fin ny → ℝ :=
  fun a b =>
    s.Ex a b + s.dt * (s.alpha_emerge *
      ((s.BzPostSource src t a b.succ - s.BzPostSource src t a b.castSucc) / s.dy) /
      (1 + s.beta_sat * (s.Ex a b) ^ 2) - s.sigma_damp * s.Ex a b)

/-- Spec-side statement of the `Ey` update before edge damping: the old
`Ey` plus `dt * (alpha_emerge * flux_Ey / (1 + beta_sat * Ey**2) -
sigma_damp * Ey)`, where `flux_Ey` is the negated forward difference of
the post-source `Bz` along x divided by `dx` and the saturation
denominator uses the pre-update `Ey`. -/
def specEyBeforeDamp {nx ny : ℕ} (s : MagnoRelSim2D nx ny)
    (src : Option (MagnoSource nx ny)) (t : ℕ) : Fin nx → Fin (ny + 1) → ℝ :=
  fun a b =>
    s.Ey a b + s.dt * (s.alpha_emerge *
      (-((s.BzPostSource src t a.succ b - s.BzPostSource src t a.castSucc b) / s.dx)) /
      (1 + s.beta_sat * (s.Ey a b) ^ 2) - s.sigma_damp * s.Ey a b)

/-! ### Concrete states used by witnesses -/

/-- A state with `k_rel = 0` (all coupling parameters zero): the spec's
zero-source stability scenario. -/
def simZeroK : MagnoRelSim2D 10 10 :=
  MagnoRelSim2D.init 10 10 1 1 1 1 0 0 0 0

/-- A state with `k_rel = 1 ≠ 0`, on which `step` succeeds. -/
def simPosK : MagnoRelSim2D 9 9 :=
  MagnoRelSim2D.init 9 9 1 1 1 1 1 0 0 0

/-- A small `3 × 3` state with `k_rel = 1 ≠ 0`. -/
def simSmallK : MagnoRelSim2D 3 3 :=
  MagnoRelSim2D.init 3 3 1 1 1 1 1 0 0 0

/-- A source that always injects the zero array. -/
def srcA : MagnoSource 3 3 := fun _ _ _ _ => 0

/-- A source extensionally equal to `srcA` but syntactically different. -/
def srcB : MagnoSource 3 3 := fun t _ _ _ => 0 * (t : ℝ)

/-! ### Helper lemmas -/

theorem c_eff_eq_scalar {nx ny : ℕ} (s : MagnoRelSim2D nx ny) (h : s.k_rel = 0) :
    s.c_eff = CEff.scalar s.c := by
  unfold MagnoRelSim2D.c_eff
  rw [if_pos h]

theorem c_eff_eq_arr {nx ny : ℕ} (s : MagnoRelSim2D nx ny) (h : s.k_rel ≠ 0) :
    s.c_eff = CEff.arr s.ceArr := by
  unfold MagnoRelSim2D.c_eff
  rw [if_neg h]

theorem step_eq_err {nx ny : ℕ} (s : MagnoRelSim2D nx ny)
    (src : Option (MagnoSource nx ny)) (t : ℕ) (h : s.k_rel = 0) :
    s.step src t = .err .floatNotSubscriptable s := by
  unfold MagnoRelSim2D.step
  rw [c_eff_eq_scalar s h]

theorem step_eq_ok {nx ny : ℕ} (s : MagnoRelSim2D nx ny)
    (src : Option (MagnoSource nx ny)) (t : ℕ) (h : s.k_rel ≠ 0) :
    s.step src t = .ok (s.stepBody s.ceArr src t) := by
  unfold MagnoRelSim2D.step
  rw [c_eff_eq_arr s h]

theorem step_ok_inv {nx ny : ℕ} {s s' : MagnoRelSim2D nx ny}
    {src : Option (MagnoSource nx ny)} {t : ℕ} (h : s.step src t = .ok s') :
    s.k_rel ≠ 0 ∧ s' = s.stepBody s.ceArr src t := by
  by_cases hk : s.k_rel = 0
  · rw [step_eq_err s src t hk] at h
    exact absurd h (by simp)
  · rw [step_eq_ok s src t hk] at h
    exact ⟨hk, (StepResult.ok.injEq _ _ ▸ h).symm⟩

theorem stepBody_hist {nx ny : ℕ} (s : MagnoRelSim2D nx ny)
    (ce : Fin (nx + 1) → Fin (ny + 1) → ℝ) (src : Option (MagnoSource nx ny)) (t : ℕ) :
    (s.stepBody ce src t).energy_hist =
      s.energy_hist ++ [meanSq (s.stepBody ce src t).Bz +
        meanSq (s.stepBody ce src t).Ex + meanSq (s.stepBody ce src t).Ey] :=
  rfl

theorem meanSq_nonneg {m n : ℕ} (A : Fin m → Fin n → ℝ) : 0 ≤ meanSq A := by
  unfold meanSq
  apply div_nonneg
  · exact Finset.sum_nonneg fun i _ => Finset.sum_nonneg fun j _ => sq_nonneg _
  · positivity

theorem run_ok_hist_length {nx ny : ℕ} (s : MagnoRelSim2D nx ny)
    (src : Option (MagnoSource nx ny)) :
    ∀ (N : ℕ) (s2 : MagnoRelSim2D nx ny), s.run src N = .ok s2 →
      s2.energy_hist.length = s.energy_hist.length + N := by
  intro N
  induction N with
  | zero =>
    intro s2 h
    unfold MagnoRelSim2D.run at h
    simp only [StepResult.ok.injEq] at h
    rw [← h]
    rfl
  | succ n ih =>
    intro s2 h
    unfold MagnoRelSim2D.run at h
    cases hr : s.run src n with
    | ok s3 =>
      rw [hr] at h
      obtain ⟨_, hbody⟩ := step_ok_inv h
      rw [hbody, stepBody_hist, List.length_append, ih s3 hr]
      simp [Nat.add_assoc]
    | err e s3 =>
      rw [hr] at h
      exact absurd h (by simp)

/-! ### Claims -/

/-- **C1, counterexample.**  The claim says `c_eff()` always returns a
per-node array with the shape of `Bz`.  On a simulator with `k_rel = 0`
the code executes `return self.c` and hands back the bare float, not an
array. -/
theorem c1_counterexample : (simZeroK.c_eff).isArr = false := by
  rw [c_eff_eq_scalar simZeroK rfl]
  rfl

/-- **C1, amended.**  `c_eff` returns the bare scalar `c` when
`k_rel == 0` (it broadcasts in elementwise arithmetic but is not an
array), and otherwise a per-node array, with the shape of `Bz`, holding
`c / sqrt(1 + k_rel * Bz**2)` elementwise. -/
theorem c1_ceff_scalar_or_array {nx ny : ℕ} (s : MagnoRelSim2D nx ny) :
    (s.k_rel = 0 → s.c_eff = CEff.scalar s.c) ∧
    (s.k_rel ≠ 0 → s.c_eff =
      CEff.arr fun i j => s.c / Real.sqrt (1 + s.k_rel * (s.Bz i j) ^ 2)) :=
  ⟨fun h => c_eff_eq_scalar s h, fun h => c_eff_eq_arr s h⟩

/-- **C1, witness.**  Both branches at concrete states: `k_rel = 0` gives
the scalar, `k_rel = 1` gives the elementwise array. -/
theorem c1_witness :
    simZeroK.c_eff = CEff.scalar simZeroK.c ∧
    simPosK.c_eff =
      CEff.arr fun i j => simPosK.c / Real.sqrt (1 + simPosK.k_rel * (simPosK.Bz i j) ^ 2) :=
  ⟨(c1_ceff_scalar_or_array simZeroK).1 rfl,
   (c1_ceff_scalar_or_array simPosK).2 (by norm_num [simPosK, MagnoRelSim2D.init])⟩

/-- **C2 (code bug).**  The spec's zero-source stability scenario
(`alpha_emerge = k_rel = sigma_damp = beta_sat = 0`, zero fields, no
source) cannot run: because `k_rel = 0`, `c_eff` returns the bare float
`c` and `step` raises `TypeError` when it subscripts it, so no step ever
completes and no energy entry is ever appended.  Shown here for three
consecutive `step` calls: each raises, the fields stay the all-zero
initial arrays and `energy_hist` stays empty. -/
theorem c2_zero_params_step_raises :
    simZeroK.run none 3 = .err .floatNotSubscriptable simZeroK ∧
    simZeroK.energy_hist = [] ∧
    simZeroK.Bz 0 0 = 0 ∧ simZeroK.Ex 0 0 = 0 ∧ simZeroK.Ey 0 0 = 0 := by
  have h1 : simZeroK.step none 0 = .err .floatNotSubscriptable simZeroK :=
    step_eq_err simZeroK none 0 rfl
  refine ⟨?_, rfl, rfl, rfl, rfl⟩
  simp [MagnoRelSim2D.run, h1]

/-- **C3.**  For every simulator with `k_rel == 0`, `step` raises
`TypeError` (the bare float returned by `c_eff` is subscripted with a
2-D slice), and the exception propagates before any mutation: the state
carried out — `Bz`, `Ex`, `Ey`, `energy_hist` — is exactly the input
state. -/
theorem c3_step_typeerror_no_mutation {nx ny : ℕ} (s : MagnoRelSim2D nx ny)
    (src : Option (MagnoSource nx ny)) (t : ℕ) (h : s.k_rel = 0) :
    s.step src t = .err .floatNotSubscriptable s :=
  step_eq_err s src t h

/-- **C3, witness.**  A concrete `k_rel = 0` simulator: the first `step`
call raises and leaves the state untouched. -/
theorem c3_witness : simZeroK.step none 0 = .err .floatNotSubscriptable simZeroK :=
  c3_step_typeerror_no_mutation simZeroK none 0 rfl

/-- **C10, counterexample.**  The claim says construction with invalid
parameters (here `nx = 0 < 1`, `dx = -1 ≤ 0`, `dt = 0`) fails with a
`ConfigurationError` and produces no instance.  `__init__` performs no
validation: it stores the parameters verbatim and hands back a fully
formed instance with zero fields and empty history. -/
theorem c10_counterexample :
    (MagnoRelSim2D.init 0 3 (-1) 1 0 1 0 0 0 0).dx = -1 ∧
    (MagnoRelSim2D.init 0 3 (-1) 1 0 1 0 0 0 0).dt = 0 ∧
    (MagnoRelSim2D.init 0 3 (-1) 1 0 1 0 0 0 0).Bz 0 0 = 0 ∧
    (MagnoRelSim2D.init 0 3 (-1) 1 0 1 0 0 0 0).energy_hist = [] :=
  ⟨rfl, rfl, rfl, rfl⟩

/-- **C10, amended.**  Construction never fails: for any parameters,
valid or not, `__init__` stores them unchanged and produces an instance
with all-zero fields and an empty `energy_hist`; the code defines no
`ConfigurationError` and no validation (the spec itself notes that no
error path exists in the reference behavior). -/
theorem c10_init_never_fails (nx ny : ℕ)
    (dx dy dt c k_rel alpha_emerge beta_sat sigma_damp : ℝ) :
    (MagnoRelSim2D.init nx ny dx dy dt c k_rel alpha_emerge beta_sat sigma_damp).dx = dx ∧
    (MagnoRelSim2D.init nx ny dx dy dt c k_rel alpha_emerge beta_sat sigma_damp).dy = dy ∧
    (MagnoRelSim2D.init nx ny dx dy dt c k_rel alpha_emerge beta_sat sigma_damp).dt = dt ∧
    (∀ i j, (MagnoRelSim2D.init nx ny dx dy dt c k_rel alpha_emerge beta_sat sigma_damp).Bz i j = 0) ∧
    (∀ i j, (MagnoRelSim2D.init nx ny dx dy dt c k_rel alpha_emerge beta_sat sigma_damp).Ex i j = 0) ∧
    (∀ i j, (MagnoRelSim2D.init nx ny dx dy dt c k_rel alpha_emerge beta_sat sigma_damp).Ey i j = 0) ∧
    (MagnoRelSim2D.init nx ny dx dy dt c k_rel alpha_emerge beta_sat sigma_damp).energy_hist = [] :=
  ⟨rfl, rfl, rfl, fun _ _ => rfl, fun _ _ => rfl, fun _ _ => rfl, rfl⟩

/-- **C4.**  In every completed `step` call the new `Ex` (resp. `Ey`)
is the edge-damped version of: the old component plus
`dt * (alpha_emerge * flux / (1 + beta_sat * E**2) - sigma_damp * E)`,
with the flux the (negated, for `Ey`) forward difference of the
post-source `Bz` divided by the cell size, shaped like the component,
and the saturation denominator built from the pre-update component. -/
theorem c4_E_update_formula {nx ny : ℕ} (s s' : MagnoRelSim2D nx ny)
    (src : Option (MagnoSource nx ny)) (t : ℕ) (h : s.step src t = .ok s') :
    (∀ i j, s'.Ex i j = MagnoRelSim2D.edge_damp 4 (9 / 10) (specExBeforeDamp s src t) i j) ∧
    (∀ i j, s'.Ey i j = MagnoRelSim2D.edge_damp 4 (9 / 10) (specEyBeforeDamp s src t) i j) := by
  obtain ⟨hk, rfl⟩ := step_ok_inv h
  exact ⟨fun i j => rfl, fun i j => rfl⟩

/-- **C4, witness.**  A concrete successful step (`k_rel = 1`): the
formula holds at the sampled cells. -/
theorem c4_witness :
    (simPosK.stepBody simPosK.ceArr none 0).Ex 0 0 =
      MagnoRelSim2D.edge_damp 4 (9 / 10) (specExBeforeDamp simPosK none 0) 0 0 ∧
    (simPosK.stepBody simPosK.ceArr none 0).Ey 0 0 =
      MagnoRelSim2D.edge_damp 4 (9 / 10) (specEyBeforeDamp simPosK none 0) 0 0 := by
  have h := c4_E_update_formula simPosK (simPosK.stepBody simPosK.ceArr none 0) none 0
    (step_eq_ok simPosK none 0 (by norm_num [simPosK, MagnoRelSim2D.init]))
  exact ⟨h.1 0 0, h.2 0 0⟩

/-- **C5.**  One application of `_edge_damp` with margin 4 and factor
`0.9` on an array whose two dimensions both exceed `2 * 4`: cells within
4 of both a row edge and a column edge are multiplied by `0.9 ^ 2`,
cells within 4 of exactly one kind of edge by `0.9`, and cells beyond
the margin on both axes are unchanged. -/
theorem c5_edge_damp_cases {rows cols : ℕ} (hr : 2 * 4 < rows) (hc : 2 * 4 < cols)
    (A : Fin rows → Fin cols → ℝ) (i : Fin rows) (j : Fin cols) :
    ((i.val < 4 ∨ rows - 4 ≤ i.val) → (j.val < 4 ∨ cols - 4 ≤ j.val) →
      MagnoRelSim2D.edge_damp 4 (9 / 10) A i j = A i j * (9 / 10) ^ 2) ∧
    ((i.val < 4 ∨ rows - 4 ≤ i.val) → ¬(j.val < 4 ∨ cols - 4 ≤ j.val) →
      MagnoRelSim2D.edge_damp 4 (9 / 10) A i j = A i j * (9 / 10)) ∧
    (¬(i.val < 4 ∨ rows - 4 ≤ i.val) → (j.val < 4 ∨ cols - 4 ≤ j.val) →
      MagnoRelSim2D.edge_damp 4 (9 / 10) A i j = A i j * (9 / 10)) ∧
    (¬(i.val < 4 ∨ rows - 4 ≤ i.val) → ¬(j.val < 4 ∨ cols - 4 ≤ j.val) →
      MagnoRelSim2D.edge_damp 4 (9 / 10) A i j = A i j) := by
  refine ⟨?_, ?_, ?_, ?_⟩
  · rintro (hi | hi) (hj | hj) <;> dsimp only [MagnoRelSim2D.edge_damp] <;>
      split_ifs <;> first | (exfalso; omega) | ring1
  · rintro (hi | hi) hj <;> dsimp only [MagnoRelSim2D.edge_damp] <;>
      split_ifs <;> first | (exfalso; omega) | ring1
  · rintro hi (hj | hj) <;> dsimp only [MagnoRelSim2D.edge_damp] <;>
      split_ifs <;> first | (exfalso; omega) | ring1
  · intro hi hj
    dsimp only [MagnoRelSim2D.edge_damp]
    split_ifs <;> first | (exfalso; omega) | ring1

/-- **C5, witness.**  A `9 × 9` constant array with value 2: the corner
`(0,0)` becomes `2 * 0.9 ^ 2`, the edge cell `(0,4)` becomes `2 * 0.9`,
and the interior cell `(4,4)` stays 2. -/
theorem c5_witness :
    MagnoRelSim2D.edge_damp 4 (9 / 10) (fun _ _ => (2 : ℝ)) (0 : Fin 9) (0 : Fin 9) =
      2 * (9 / 10) ^ 2 ∧
    MagnoRelSim2D.edge_damp 4 (9 / 10) (fun _ _ => (2 : ℝ)) (0 : Fin 9) (4 : Fin 9) =
      2 * (9 / 10) ∧
    MagnoRelSim2D.edge_damp 4 (9 / 10) (fun _ _ => (2 : ℝ)) (4 : Fin 9) (4 : Fin 9) = 2 := by
  refine ⟨?_, ?_, ?_⟩
  · exact (c5_edge_damp_cases (by norm_num) (by norm_num) (fun _ _ => (2 : ℝ)) 0 0).1
      (by decide) (by decide)
  · exact (c5_edge_damp_cases (by norm_num) (by norm_num) (fun _ _ => (2 : ℝ)) 0 4).2.1
      (by decide) (by decide)
  · exact (c5_edge_damp_cases (by norm_num) (by norm_num) (fun _ _ => (2 : ℝ)) 4 4).2.2.2
      (by decide) (by decide)

/-- **C6.**  Every completed `step` appends exactly one entry to
`energy_hist`, leaving the earlier entries untouched; the appended entry
is `mean(Bz**2) + mean(Ex**2) + mean(Ey**2)` of the post-edge-damping
fields and is non-negative; and after `N` completed steps from a fresh
instance `len(energy_hist) = N`. -/
theorem c6_energy_hist (nx ny : ℕ) (s s' : MagnoRelSim2D nx ny)
    (src : Option (MagnoSource nx ny)) (t : ℕ)
    (dx dy dt c k_rel alpha_emerge beta_sat sigma_damp : ℝ)
    (src2 : Option (MagnoSource nx ny)) (N : ℕ) (s2 : MagnoRelSim2D nx ny) :
    (s.step src t = .ok s' →
      s'.energy_hist = s.energy_hist ++ [meanSq s'.Bz + meanSq s'.Ex + meanSq s'.Ey] ∧
      0 ≤ meanSq s'.Bz + meanSq s'.Ex + meanSq s'.Ey) ∧
    ((MagnoRelSim2D.init nx ny dx dy dt c k_rel alpha_emerge beta_sat sigma_damp).run src2 N = .ok s2 →
      s2.energy_hist.length = N) := by
  constructor
  · intro h
    obtain ⟨hk, rfl⟩ := step_ok_inv h
    exact ⟨stepBody_hist s s.ceArr src t,
      add_nonneg (add_nonneg (meanSq_nonneg _) (meanSq_nonneg _)) (meanSq_nonneg _)⟩
  · intro h
    have hlen := run_ok_hist_length
      (MagnoRelSim2D.init nx ny dx dy dt c k_rel alpha_emerge beta_sat sigma_damp) src2 N s2 h
    simpa [MagnoRelSim2D.init] using hlen

/-- **C6, witness.**  A concrete successful step from a fresh `k_rel = 1`
instance: one entry (the combined mean square, non-negative) is appended
to the empty history; and the fresh instance after 0 steps has history
length 0. -/
theorem c6_witness :
    ((simPosK.stepBody simPosK.ceArr none 0).energy_hist =
      simPosK.energy_hist ++ [meanSq (simPosK.stepBody simPosK.ceArr none 0).Bz +
        meanSq (simPosK.stepBody simPosK.ceArr none 0).Ex +
        meanSq (simPosK.stepBody simPosK.ceArr none 0).Ey] ∧
      0 ≤ meanSq (simPosK.stepBody simPosK.ceArr none 0).Bz +
        meanSq (simPosK.stepBody simPosK.ceArr none 0).Ex +
        meanSq (simPosK.stepBody simPosK.ceArr none 0).Ey) ∧
    simPosK.energy_hist.length = 0 := by
  have h := c6_energy_hist 9 9 simPosK (simPosK.stepBody simPosK.ceArr none 0) none 0
    1 1 1 1 1 0 0 0 none 0 simPosK
  exact ⟨h.1 (step_eq_ok simPosK none 0 (by norm_num [simPosK, MagnoRelSim2D.init])), h.2 rfl⟩

/-- **C7.**  Determinism: two instances constructed with identical
parameters and driven by the same (extensionally equal) source function
over the same step indices produce identical results — the whole run
outcome is equal, and in particular the final `Bz`, `Ex`, `Ey` arrays
and `energy_hist` sequences agree element-for-element. -/
theorem c7_determinism (nx ny : ℕ) (dx dy dt c k_rel alpha_emerge beta_sat sigma_damp : ℝ)
    (src1 src2 : MagnoSource nx ny) (N : ℕ)
    (hsrc : ∀ t B, src1 t B = src2 t B) :
    (MagnoRelSim2D.init nx ny dx dy dt c k_rel alpha_emerge beta_sat sigma_damp).run (some src1) N =
      (MagnoRelSim2D.init nx ny dx dy dt c k_rel alpha_emerge beta_sat sigma_damp).run (some src2) N ∧
    ∀ sa sb,
      (MagnoRelSim2D.init nx ny dx dy dt c k_rel alpha_emerge beta_sat sigma_damp).run (some src1) N = .ok sa →
      (MagnoRelSim2D.init nx ny dx dy dt c k_rel alpha_emerge beta_sat sigma_damp).run (some src2) N = .ok sb →
      (∀ i j, sa.Bz i j = sb.Bz i j) ∧ (∀ i j, sa.Ex i j = sb.Ex i j) ∧
      (∀ i j, sa.Ey i j = sb.Ey i j) ∧ sa.energy_hist = sb.energy_hist := by
  have he : src1 = src2 := funext fun t => funext fun B => hsrc t B
  subst he
  refine ⟨rfl, ?_⟩
  intro sa sb ha hb
  rw [ha] at hb
  simp only [StepResult.ok.injEq] at hb
  subst hb
  exact ⟨fun _ _ => rfl, fun _ _ => rfl, fun _ _ => rfl, rfl⟩

/-- **C7, witness.**  Two syntactically different but extensionally equal
sources drive identical two-step runs from identically constructed
instances. -/
theorem c7_witness :
    simSmallK.run (some srcA) 2 = simSmallK.run (some srcB) 2 :=
  (c7_determinism 3 3 1 1 1 1 1 0 0 0 srcA srcB 2
    (by intro t B; funext i j; simp [srcA, srcB])).1

/-- **C8.**  For `nx, ny ≥ 1`, a fresh instance has `Bz` of shape
`(nx+1, ny+1)`, `Ex` of shape `(nx+1, ny)`, `Ey` of shape `(nx, ny+1)`,
all entries zero, and a completed `step` leaves all three shapes
unchanged (in this embedding the shapes are the index types of the
field arrays, fixed by the type-level grid dimensions). -/
theorem c8_shape_invariants (nx ny : ℕ) (_hnx : 1 ≤ nx) (_hny : 1 ≤ ny)
    (dx dy dt c k_rel alpha_emerge beta_sat sigma_damp : ℝ)
    (s s' : MagnoRelSim2D nx ny) (src : Option (MagnoSource nx ny)) (t : ℕ) :
    (∀ i j, (MagnoRelSim2D.init nx ny dx dy dt c k_rel alpha_emerge beta_sat sigma_damp).Bz i j = 0) ∧
    (∀ i j, (MagnoRelSim2D.init nx ny dx dy dt c k_rel alpha_emerge beta_sat sigma_damp).Ex i j = 0) ∧
    (∀ i j, (MagnoRelSim2D.init nx ny dx dy dt c k_rel alpha_emerge beta_sat sigma_damp).Ey i j = 0) ∧
    (MagnoRelSim2D.init nx ny dx dy dt c k_rel alpha_emerge beta_sat sigma_damp).BzShape = (nx + 1, ny + 1) ∧
    (MagnoRelSim2D.init nx ny dx dy dt c k_rel alpha_emerge beta_sat sigma_damp).ExShape = (nx + 1, ny) ∧
    (MagnoRelSim2D.init nx ny dx dy dt c k_rel alpha_emerge beta_sat sigma_damp).EyShape = (nx, ny + 1) ∧
    (s.step src t = .ok s' →
      s'.BzShape = s.BzShape ∧ s'.ExShape = s.ExShape ∧ s'.EyShape = s.EyShape) :=
  ⟨fun _ _ => rfl, fun _ _ => rfl, fun _ _ => rfl, rfl, rfl, rfl,
   fun _ => ⟨rfl, rfl, rfl⟩⟩

/-- **C8, witness.**  The invariants at `nx = ny = 3` with a concrete
completed step. -/
theorem c8_witness :
    simSmallK.Bz 0 0 = 0 ∧ simSmallK.Ex 0 0 = 0 ∧ simSmallK.Ey 0 0 = 0 ∧
    simSmallK.BzShape = (4, 4) ∧ simSmallK.ExShape = (4, 3) ∧ simSmallK.EyShape = (3, 4) ∧
    ((simSmallK.stepBody simSmallK.ceArr none 0).BzShape = simSmallK.BzShape ∧
     (simSmallK.stepBody simSmallK.ceArr none 0).ExShape = simSmallK.ExShape ∧
     (simSmallK.stepBody simSmallK.ceArr none 0).EyShape = simSmallK.EyShape) := by
  have h := c8_shape_invariants 3 3 (by norm_num) (by norm_num) 1 1 1 1 1 0 0 0
    simSmallK (simSmallK.stepBody simSmallK.ceArr none 0) none 0
  exact ⟨h.1 0 0, h.2.1 0 0, h.2.2.1 0 0, h.2.2.2.1, h.2.2.2.2.1, h.2.2.2.2.2.1,
    h.2.2.2.2.2.2 (step_eq_ok simSmallK none 0 (by norm_num [simSmallK, MagnoRelSim2D.init]))⟩

/-- **C9.**  The per-step saturating increment
`dt * alpha_emerge * F / (1 + beta_sat * e**2)` (the `satIncr` cell
update of `step` with `sigma_damp = 0`) is strictly decreasing in the
cell magnitude: for `dt, alpha_emerge, beta_sat, F > 0` and
`0 ≤ e1 < e2`, the increment at `e2` is strictly smaller than at `e1`. -/
theorem c9_saturation_strict_anti (dt alpha_emerge beta_sat F e1 e2 : ℝ)
    (hdt : 0 < dt) (ha : 0 < alpha_emerge) (hb : 0 < beta_sat) (hF : 0 < F)
    (h1 : 0 ≤ e1) (h12 : e1 < e2) :
    satIncr dt alpha_emerge beta_sat 0 F e2 < satIncr dt alpha_emerge beta_sat 0 F e1 := by
  unfold satIncr
  simp only [zero_mul, sub_zero]
  have hsq : e1 ^ 2 < e2 ^ 2 := by nlinarith
  have hd1 : 0 < 1 + beta_sat * e1 ^ 2 := by positivity
  have hd12 : 1 + beta_sat * e1 ^ 2 < 1 + beta_sat * e2 ^ 2 := by nlinarith
  exact mul_lt_mul_of_pos_left
    (div_lt_div_of_pos_left (by positivity) hd1 hd12) hdt

/-- **C9, witness.**  Concrete values `dt = alpha_emerge = beta_sat = F = 1`,
`e1 = 0 < e2 = 1`: the increment drops from 1 to 1/2. -/
theorem c9_witness : satIncr 1 1 1 0 1 1 < satIncr 1 1 1 0 1 0 :=
  c9_saturation_strict_anti 1 1 1 1 0 1 (by norm_num) (by norm_num) (by norm_num)
    (by norm_num) (by norm_num) (by norm_num)

end
